import Mathlib

/-!
Verification development for the ledgerPy repository.

The repository stores income/expense transactions in per-month CSV files
(columns date, category, amount, type, note) and aggregates them with
pandas.  This file gives a shallow embedding of the record store
(`scripts/ledger.py::add_record`, `sync/ledger/scripts/api.py::add_record`),
the loader (`scripts/ledger_pro.py::get_monthly_data`), the aggregation
functions (`calculate_monthly_summary`, `generate_report`,
`generate_multi_month_report`, the weekly breakdown in `export_md`) and
`get_months_in_range`, and proves or refutes the frozen claims about them.

Modelling conventions:
* Amounts are modelled as exact integers (the code uses Python floats;
  every claim is about exact accounting identities and concrete integral
  scenarios, so exact arithmetic is the faithful idealisation).
* A CSV cell is the string written by `DataFrame.to_csv`.  Reading a cell
  back with `pd.read_csv` collapses pandas' default NA tokens (the empty
  string, "NA", "NaN", ...) to the missing value NaN; we model a read
  string cell as `Option String` with `none` for NaN.  Writing NaN back
  with `to_csv` produces the empty cell (default `na_rep`), which is what
  `normalizeCell` captures for the read-then-rewrite in `add_record`.
* `pd.read_csv` additionally infers column dtypes: a column whose non-NA
  cells all look numeric reloads as numbers, and an all-boolean-token
  column reloads as booleans.  The per-cell model is exact for object
  (text) columns; where a claim needs a cell to survive the reload as its
  own string, its hypotheses require the cell to be plain text
  (`numericLike`/`boolLike` both false), which forces the whole column to
  object dtype, so the per-cell model is faithful there.
* pandas Timestamps are modelled by their day number (`toRd`, a rata-die
  style count): Timestamp comparison is linear-time order and
  `DateOffset(days = k)` is `+ k` on day numbers; `replace(day = 1)` and
  month ends are computed from the (year, month, day) components, which
  parsed rows keep.
-/

/-- Default NA tokens of `pd.read_csv`: a cell equal to one of these strings
is read back as NaN. -/
def naValues : List String :=
  ["", "#N/A", "#N/A N/A", "#NA", "-1.#IND", "-1.#QNAN", "-NaN", "-nan",
   "1.#IND", "1.#QNAN", "<NA>", "N/A", "NULL", "NaN", "None",
   "n/a", "nan", "null"]

/-- Reading a string cell of an object-dtype column from CSV: NA tokens
become missing (NaN), other cells keep their text.  This is exact whenever
the cell's column is not numeric/boolean-inferred; theorems that depend on
a cell surviving as text carry `numericLike`/`boolLike` hypotheses that
guarantee object dtype for its column. -/
def readCell (s : String) : Option String :=
  if s ∈ naValues then none else some s

/-- Effect on a stored cell of an object-dtype column of reading the table
and writing it back (`pd.read_csv` then `to_csv`): NA tokens are rewritten
as the empty cell, other text verbatim.  A numeric-inferred column would
additionally be reformatted through its float repr; none of the properties
proved below observe such a cell (the date strings they rely on contain
dashes and are never numeric-inferred). -/
def normalizeCell (s : String) : String :=
  if s ∈ naValues then "" else s

/-- One row of a month table as written on disk (header excluded):
columns date, category, amount, type, note. -/
structure Txn where
  date : String
  category : String
  amount : ℤ
  type : String
  note : String
deriving DecidableEq, Repr

/-- One row as produced by `pd.read_csv`: string cells may have collapsed
to NaN (`none`); the amount column is numeric. -/
structure LoadedTxn where
  date : Option String
  category : Option String
  amount : ℤ
  type : Option String
  note : Option String
deriving DecidableEq, Repr

/-- Reading one stored row with `pd.read_csv`. -/
def readRow (t : Txn) : LoadedTxn :=
  ⟨readCell t.date, readCell t.category, t.amount, readCell t.type, readCell t.note⟩

/-- Read-then-rewrite of one stored row (the `pd.read_csv`/`to_csv` round
trip that `add_record` performs on the rows already in the table). -/
def normalizeRow (t : Txn) : Txn :=
  ⟨normalizeCell t.date, normalizeCell t.category, t.amount,
   normalizeCell t.type, normalizeCell t.note⟩

/-- The data directory: each month key (file stem) maps to the rows of its
CSV table; a missing or freshly created table is the empty list. -/
def Store := String → List Txn

/-- scripts/ledger.py::add_record (and api.py::add_record): the month key is
the first seven characters of the date string; the table is read
(normalising NA cells), the new row is appended, and the table is written
back.  No validation of any field is performed. -/
def addRecord (store : Store) (t : Txn) : Store :=
  fun m =>
    if m = t.date.take 7 then
      (store (t.date.take 7)).map normalizeRow ++ [t]
    else
      store m

/-- scripts/ledger_pro.py::get_monthly_data (also the `pd.read_csv` step of
`generate_report` and the API endpoints): load a month's rows. -/
def loadRows (rows : List Txn) : List LoadedTxn := rows.map readRow

/-- Loading a month from the store. -/
def getMonthlyData (store : Store) (m : String) : List LoadedTxn :=
  loadRows (store m)

/-! ### Calendar dates

`datetime.date` / `datetime.datetime` arithmetic used by the CLI and the
report code, together with the exact `strptime("%Y-%m-%d")` grammar used by
`scripts/ledger.py::main` to validate a user-supplied date. -/

/-- Gregorian leap year. -/
def isLeap (y : Nat) : Bool :=
  (y % 4 == 0 && y % 100 != 0) || (y % 400 == 0)

/-- Number of days in a month. -/
def daysInMonth (y m : Nat) : Nat :=
  if m = 2 then (if isLeap y then 29 else 28)
  else if m = 4 ∨ m = 6 ∨ m = 9 ∨ m = 11 then 30
  else 31

/-- Days in year `y` that lie strictly before month `m`. -/
def daysBeforeMonth (y m : Nat) : Nat :=
  ((List.range (m - 1)).map (fun k => daysInMonth y (k + 1))).sum

/-- A calendar date as the (year, month, day) components kept by
`datetime.date` and `pd.Timestamp`. -/
structure Ymd where
  y : Nat
  m : Nat
  d : Nat
deriving DecidableEq, Repr

/-- Day number of a date (days since the proleptic Gregorian epoch).
Timestamp order and `DateOffset(days = k)` act on this number. -/
def toRd (y m d : Nat) : Nat :=
  365 * (y - 1) + ((y - 1) / 4 + (y - 1) / 400 - (y - 1) / 100)
    + daysBeforeMonth y m + (d - 1)

/-- Day number of a `Ymd`. -/
def Ymd.rd (x : Ymd) : Nat := toRd x.y x.m x.d

/-- Numeric value of a decimal digit character, if any. -/
def digitVal (c : Char) : Option Nat :=
  if c.isDigit then some (c.toNat - 48) else none

/-- One or two digit numeric field of `strptime`, mirroring the regex
alternations `1[0-2]|0[1-9]|[1-9]` (month, `hi = 12`) and
`3[01]|[12]\d|0[1-9]|[1-9]` (day, `hi = 31`): two digits are consumed when
they form a value in `1..hi`, else a single digit in `1..9`. -/
def parseTwoOrOne (hi : Nat) : List Char → Option (Nat × List Char)
  | c1 :: c2 :: rest =>
    match digitVal c1, digitVal c2 with
    | some v1, some v2 =>
      if 1 ≤ 10 * v1 + v2 ∧ 10 * v1 + v2 ≤ hi then some (10 * v1 + v2, rest)
      else if 1 ≤ v1 ∧ v1 ≤ 9 then some (v1, c2 :: rest)
      else none
    | some v1, none =>
      if 1 ≤ v1 ∧ v1 ≤ 9 then some (v1, c2 :: rest) else none
    | none, _ => none
  | [c1] =>
    match digitVal c1 with
    | some v1 => if 1 ≤ v1 ∧ v1 ≤ 9 then some (v1, []) else none
    | none => none
  | [] => none

/-- `datetime.datetime.strptime(s, "%Y-%m-%d")`: four year digits, a dash,
a one/two digit month, a dash, a one/two digit day consuming the whole
string; constructing the datetime additionally requires `year ≥ 1` and the
day to exist in the month. -/
def parseDate (s : String) : Option Ymd :=
  match s.data with
  | y1 :: y2 :: y3 :: y4 :: '-' :: rest =>
    match digitVal y1, digitVal y2, digitVal y3, digitVal y4 with
    | some a, some b, some c, some d =>
      let y := 1000 * a + 100 * b + 10 * c + d
      match parseTwoOrOne 12 rest with
      | some (mo, rest2) =>
        match rest2 with
        | '-' :: rest3 =>
          match parseTwoOrOne 31 rest3 with
          | some (dy, []) =>
            if 1 ≤ y ∧ dy ≤ daysInMonth y mo then some ⟨y, mo, dy⟩ else none
          | _ => none
        | _ => none
      | none => none
    | _, _, _, _ => none
  | _ => none

/-- Whether `strptime("%Y-%m-%d")` accepts the string. -/
def isValidDateStr (s : String) : Bool := (parseDate s).isSome

/-- Zero-padded two digit field (`%m`, `%d`). -/
def pad2 (n : Nat) : String :=
  if n < 10 then "0" ++ toString n else toString n

/-- Zero-padded four digit field (`%Y`). -/
def pad4 (n : Nat) : String :=
  if n < 10 then "000" ++ toString n
  else if n < 100 then "00" ++ toString n
  else if n < 1000 then "0" ++ toString n
  else toString n

/-- `date.strftime("%Y-%m-%d")`. -/
def formatYmd (x : Ymd) : String :=
  pad4 x.y ++ "-" ++ pad2 x.m ++ "-" ++ pad2 x.d

/-- `date.strftime("%Y-%m")`. -/
def formatMonth (y m : Nat) : String := pad4 y ++ "-" ++ pad2 m

/-- The previous calendar day (`date - timedelta(days=1)`). -/
def prevYmd (x : Ymd) : Ymd :=
  if 1 < x.d then ⟨x.y, x.m, x.d - 1⟩
  else if 1 < x.m then ⟨x.y, x.m - 1, daysInMonth x.y (x.m - 1)⟩
  else ⟨x.y - 1, 12, 31⟩

/-- `date - timedelta(days=n)`. -/
def subDays (x : Ymd) : Nat → Ymd
  | 0 => x
  | n + 1 => prevYmd (subDays x n)

/-- scripts/ledger.py::main, `add` command (lines 376-392): "1" means today,
"-1"/"-2"/"-3" mean that many days ago, any other string must pass
`strptime("%Y-%m-%d")` or the command prints an error and writes nothing;
on success `add_record` is called with the date string. -/
def mainAdd (today : Ymd) (store : Store) (dateStr category : String)
    (amount : ℤ) (rtype note : String) : Store :=
  if dateStr = "1" then
    addRecord store ⟨formatYmd today, category, amount, rtype, note⟩
  else if dateStr = "-1" then
    addRecord store ⟨formatYmd (subDays today 1), category, amount, rtype, note⟩
  else if dateStr = "-2" then
    addRecord store ⟨formatYmd (subDays today 2), category, amount, rtype, note⟩
  else if dateStr = "-3" then
    addRecord store ⟨formatYmd (subDays today 3), category, amount, rtype, note⟩
  else if isValidDateStr dateStr then
    addRecord store ⟨dateStr, category, amount, rtype, note⟩
  else
    store

/-- Month keys have the shape "YYYY-MM". -/
def isMonthKey (s : String) : Bool :=
  match s.data with
  | [a, b, c, d, e, f, g] =>
    a.isDigit && b.isDigit && c.isDigit && d.isDigit && (e == '-')
      && f.isDigit && g.isDigit
  | _ => false

/-! ### Aggregation

Totals and category summaries over loaded rows, as computed by
`scripts/ledger.py::generate_report`, `scripts/ledger_pro.py::
calculate_monthly_summary` / `generate_multi_month_report`, and
`sync/ledger/scripts/api.py::generate_report`. -/

/-- Python string order (code-point lexicographic), used by `sorted` and by
pandas when sorting group keys. -/
def strle (a b : String) : Prop := a.data ≤ b.data

instance : DecidableRel strle :=
  fun a b => inferInstanceAs (Decidable (a.data ≤ b.data))

instance : IsTotal String strle := ⟨fun a b => le_total a.data b.data⟩

instance : IsTrans String strle := ⟨fun _ _ _ => le_trans⟩

/-- Value order on summary entries, used by `sort_values`. -/
def valle (a b : String × ℤ) : Prop := a.2 ≤ b.2

instance : DecidableRel valle := fun a b => inferInstanceAs (Decidable (a.2 ≤ b.2))

instance : IsTotal (String × ℤ) valle := ⟨fun a b => le_total a.2 b.2⟩

instance : IsTrans (String × ℤ) valle := ⟨fun _ _ _ => le_trans⟩

/-- Reverse value order, the spec's "descending by amount". -/
def valge (a b : String × ℤ) : Prop := b.2 ≤ a.2

instance : DecidableRel valge := fun a b => inferInstanceAs (Decidable (b.2 ≤ a.2))

instance : IsTotal (String × ℤ) valge := ⟨fun a b => le_total b.2 a.2⟩

instance : IsTrans (String × ℤ) valge := ⟨fun _ _ _ h h2 => le_trans h2 h⟩

/-- Total of one kind: `df[df["type"] == kind]["amount"].sum()`. -/
def kindTotal (rows : List LoadedTxn) (k : String) : ℤ :=
  ((rows.filter (fun t => t.type == some k)).map (fun t => t.amount)).sum

/-- The (category, amount) pairs of one kind whose category cell is an
actual value; rows whose category read back as NaN are dropped, exactly as
`groupby("category")` drops NaN keys. -/
def kindPairs (rows : List LoadedTxn) (k : String) : List (String × ℤ) :=
  (rows.filter (fun t => t.type == some k)).filterMap
    (fun t => t.category.map (fun c => (c, t.amount)))

/-- Summed amount of one kind for one concrete category. -/
def kindCatAmount (rows : List LoadedTxn) (k c : String) : ℤ :=
  ((rows.filter (fun t => t.type == some k && t.category == some c)).map
    (fun t => t.amount)).sum

/-- Group keys of `groupby("category", sort=True)`: the distinct categories
in ascending string order. -/
def sortedCats (ps : List (String × ℤ)) : List String :=
  (ps.map (fun p => p.1)).dedup.insertionSort strle

/-- `df[df["type"] == kind].groupby("category")["amount"].sum()`: one entry
per distinct category (ascending key order), holding the summed amount. -/
def groupbySum (rows : List LoadedTxn) (k : String) : List (String × ℤ) :=
  (sortedCats (kindPairs rows k)).map
    (fun c => (c, (((kindPairs rows k).filter (fun p => p.1 == c)).map
      (fun p => p.2)).sum))

/-- `Series.sort_values(ascending=False)`: pandas argsorts ascending (a
stable order for the small arrays at hand) and reverses the result. -/
def sortValuesDesc (s : List (String × ℤ)) : List (String × ℤ) :=
  (s.insertionSort valle).reverse

/-- The category summary printed or exported for one kind:
`groupby("category")["amount"].sum().sort_values(ascending=False)`. -/
def catSummary (rows : List LoadedTxn) (k : String) : List (String × ℤ) :=
  sortValuesDesc (groupbySum rows k)

/-- scripts/ledger_pro.py::calculate_monthly_summary:
(income, expense, net = income - expense). -/
def calcMonthlySummary (rows : List LoadedTxn) : ℤ × ℤ × ℤ :=
  (kindTotal rows "income", kindTotal rows "expense",
   kindTotal rows "income" - kindTotal rows "expense")

/-- sync/ledger/scripts/api.py::generate_report: totals plus the expense
category summary as a dict (no value sort); an empty table yields zero
totals and an empty summary. -/
def apiGenerateReport (fileRows : List Txn) : (ℤ × ℤ × ℤ) × List (String × ℤ) :=
  let l := loadRows fileRows
  if l.isEmpty then ((0, 0, 0), [])
  else ((kindTotal l "income", kindTotal l "expense",
         kindTotal l "income" - kindTotal l "expense"),
        groupbySum l "expense")

/-- sync/ledger/scripts/api.py::export_md: the totals written into the
markdown (this endpoint generates no charts at all). -/
def apiExportTotals (fileRows : List Txn) : ℤ × ℤ × ℤ :=
  let l := loadRows fileRows
  (kindTotal l "income", kindTotal l "expense",
   kindTotal l "income" - kindTotal l "expense")

/-- Value of a pandas Series at a key, with 0 for a missing key (the
`fill_value = 0` semantics of `Series.add`). -/
def lookup0 (s : List (String × ℤ)) (c : String) : ℤ :=
  match s.find? (fun p => p.1 == c) with
  | some p => p.2
  | none => 0

/-- `Series.add(other, fill_value=0)`: index-aligned addition; the result
index is the sorted union of the two (duplicate-free) indices. -/
def seriesAdd (a b : List (String × ℤ)) : List (String × ℤ) :=
  ((a.map (fun p => p.1) ++ b.map (fun p => p.1)).dedup.insertionSort strle).map
    (fun c => (c, lookup0 a c + lookup0 b c))

/-- Per-month entry of `monthly_summary_data` in
`generate_multi_month_report`. -/
structure MonthSummary where
  month : String
  income : ℤ
  expense : ℤ
  net : ℤ
deriving DecidableEq, Repr

/-- Running state of `generate_multi_month_report`. -/
structure MultiReport where
  income : ℤ
  expense : ℤ
  monthly : List MonthSummary
  incomeCats : List (String × ℤ)
  expenseCats : List (String × ℤ)
deriving DecidableEq, Repr

/-- One iteration of the month loop in
`scripts/ledger_pro.py::generate_multi_month_report` (lines 42-78): a month
with no rows is skipped; otherwise totals accumulate, the month is appended
to the per-month breakdown, and each nonempty per-kind summary is added
into the running category totals with `fill_value = 0`.  (The
`pd.to_datetime`/`sort_values("date")` step reorders rows only and cannot
change any of these groupby sums, so it is not re-modelled here; theorems
about this function assume parseable dates, since `pd.to_datetime` raises
otherwise.) -/
def multiStep (store : Store) (acc : MultiReport) (m : String) : MultiReport :=
  let rows := getMonthlyData store m
  if rows.isEmpty then acc
  else
    let inc := kindTotal rows "income"
    let exp := kindTotal rows "expense"
    let expS := catSummary rows "expense"
    let incS := catSummary rows "income"
    { income := acc.income + inc
      expense := acc.expense + exp
      monthly := acc.monthly ++ [⟨m, inc, exp, inc - exp⟩]
      incomeCats := if incS.isEmpty then acc.incomeCats else seriesAdd acc.incomeCats incS
      expenseCats := if expS.isEmpty then acc.expenseCats else seriesAdd acc.expenseCats expS }

/-- scripts/ledger_pro.py::generate_multi_month_report: iterate
`sorted(months)` with `multiStep`, starting from zero totals and empty
category series. -/
def multiMonthReport (store : Store) (months : List String) : MultiReport :=
  (months.insertionSort strle).foldl (multiStep store) ⟨0, 0, [], [], []⟩

/-- Distinct elements in order of first appearance (`seen` accumulates the
elements already kept). -/
def firstDedupAux (seen : List String) : List String → List String
  | [] => []
  | a :: l => if a ∈ seen then firstDedupAux seen l
              else a :: firstDedupAux (a :: seen) l

/-- Written from the spec's words for comparison (claim C6): the category
summary with one entry per category in original (first-appearance) order,
stably sorted descending by amount, so that ties keep the original
category ordering. -/
def specCatSummary (rows : List LoadedTxn) (k : String) : List (String × ℤ) :=
  ((firstDedupAux [] ((kindPairs rows k).map (fun p => p.1))).map
    (fun c => (c, kindCatAmount rows k c))).insertionSort valge

/-! ### Monthly export (`scripts/ledger.py::export_md`)

The weekly sub-breakdown (lines 123-163), the chart-generation conditions
and the totals of the monthly markdown export. -/

/-- A row of `export_md` after `df["date"] = pd.to_datetime(df["date"])`:
the date is a Timestamp (kept with its components), the other used columns
as read from CSV. -/
structure PRow where
  date : Ymd
  category : Option String
  amount : ℤ
  type : Option String
deriving DecidableEq, Repr

/-- `df["date"].min()`: fold keeping the earliest Timestamp. -/
def minDate (d0 : Ymd) (l : List Ymd) : Ymd :=
  l.foldl (fun a b => if b.rd < a.rd then b else a) d0

/-- `df["date"].max()`: fold keeping the latest Timestamp. -/
def maxDate (d0 : Ymd) (l : List Ymd) : Ymd :=
  l.foldl (fun a b => if a.rd < b.rd then b else a) d0

/-- The week loop of `export_md` on day numbers, with explicit fuel (one
unit per day, an upper bound on the iterations since each window advances
the cursor by at least one day): while the cursor is at most the end date,
emit the window from the cursor to `min (cursor + 6) end` and continue the
day after the window. -/
def weeklyLoopF : Nat → Nat → Nat → List (Nat × Nat)
  | 0, _, _ => []
  | fuel + 1, cur, last =>
    if cur ≤ last then
      (cur, min (cur + 6) last) :: weeklyLoopF fuel (min (cur + 6) last + 1) last
    else []

/-- The week windows from day number `cur` to day number `last`. -/
def weeklyLoop (cur last : Nat) : List (Nat × Nat) :=
  weeklyLoopF (last + 1 - cur) cur last

/-- Expense summary of the rows with date inside a window:
`weekly_df = df[(date >= start) & (date <= end) & (type == "expense")]`,
then `groupby("category")["amount"].sum().sort_values(ascending=False)`. -/
def windowSummary (rows : List PRow) (w : Nat × Nat) : List (String × ℤ) :=
  let ps := (rows.filter (fun r =>
    w.1 ≤ r.date.rd && r.date.rd ≤ w.2 && r.type == some "expense")).filterMap
      (fun r => r.category.map (fun c => (c, r.amount)))
  sortValuesDesc ((sortedCats ps).map
    (fun c => (c, ((ps.filter (fun p => p.1 == c)).map (fun p => p.2)).sum)))

/-- The weekly sub-breakdown of `export_md` (lines 123-163): windows start
at day 1 of the earliest transaction's month (`min().replace(day=1)`), end
at `min(month-end of the latest transaction's month, latest transaction
date)`, and each window carries its expense summary. -/
def weeklySection (rows : List PRow) : List ((Nat × Nat) × List (String × ℤ)) :=
  match rows with
  | [] => []
  | r0 :: rest =>
    let mn := minDate r0.date (rest.map (fun r => r.date))
    let mx := maxDate r0.date (rest.map (fun r => r.date))
    let startRd := toRd mn.y mn.m 1
    let endRd := min (toRd mx.y mx.m (daysInMonth mx.y mx.m)) mx.rd
    (weeklyLoop startRd endRd).map (fun w => (w, windowSummary rows w))

/-- Written from the spec's words for comparison (claim C3): 7-day windows
starting at the first transaction's own date (its day-of-month), truncated
at the month's last transaction date. -/
def specWeeklyWindows (rows : List PRow) : List (Nat × Nat) :=
  match rows with
  | [] => []
  | r0 :: rest =>
    let mn := minDate r0.date (rest.map (fun r => r.date))
    let mx := maxDate r0.date (rest.map (fun r => r.date))
    weeklyLoop mn.rd mx.rd

/-- Outcome of `export_md` for one month. -/
inductive ExportOutcome where
  | noData
  | parseErr
  | ok (weekly : List ((Nat × Nat) × List (String × ℤ)))
      (charts : List String)
      (income expense net : ℤ)
      (expenseSummary : List (String × ℤ))
deriving DecidableEq, Repr

/-- `pd.to_datetime` over the date column (modelled by the ISO grammar the
repository writes; a NaN or unparseable date makes the conversion fail). -/
def parseLoaded (t : LoadedTxn) : Option PRow :=
  match t.date with
  | none => none
  | some s =>
    match parseDate s with
    | none => none
    | some d => some ⟨d, t.category, t.amount, t.type⟩

/-- scripts/ledger.py::export_md: an empty table returns immediately
(`noData`: no markdown, no charts); otherwise the date column is parsed,
the weekly section is built, and charts are generated under the
conditional-skip policy: one pie per nonempty weekly summary (named with
the 1-based week number), the monthly pie only when the expense summary is
nonempty, the cumulative and daily line charts only when there is at least
one expense row. -/
def exportMd (store : Store) (month : String) : ExportOutcome :=
  let l := getMonthlyData store month
  if l.isEmpty then ExportOutcome.noData
  else
    match l.mapM parseLoaded with
    | none => ExportOutcome.parseErr
    | some prows =>
      let weekly := weeklySection prows
      let weeklyCharts := weekly.enum.filterMap (fun e =>
        if e.2.2.isEmpty then none
        else some (month ++ "_week" ++ toString (e.1 + 1) ++ "_pie.png"))
      let expenseSummary := groupbySum (prows.map (fun r =>
        ⟨none, r.category, r.amount, r.type, none⟩)) "expense"
      let hasExpense := !(prows.filter (fun r => r.type == some "expense")).isEmpty
      let charts := weeklyCharts
        ++ (if expenseSummary.isEmpty then [] else [month ++ "_pie.png"])
        ++ (if hasExpense then [month ++ "_line.png", month ++ "_daily_line.png"] else [])
      let inc := (prows.filter (fun r => r.type == some "income")).map (fun r => r.amount) |>.sum
      let exp := (prows.filter (fun r => r.type == some "expense")).map (fun r => r.amount) |>.sum
      ExportOutcome.ok weekly charts inc exp (inc - exp) expenseSummary

/-- The chart artifacts written by `export_md` (none when it bails out). -/
def exportCharts (store : Store) (month : String) : List String :=
  match exportMd store month with
  | ExportOutcome.ok _ charts _ _ _ _ => charts
  | _ => []

/-! ### Month ranges (`scripts/ledger_pro.py::get_months_in_range`) -/

/-- The month loop on linearised month numbers (`n = 12 * year + month - 1`,
so that stepping to the next month is `n + 1`), with explicit fuel bounding
the number of appended months: while the current month is at most the end
month, append its "%Y-%m" string and advance one month. -/
def monthsLoopF : Nat → Nat → Nat → List String
  | 0, _, _ => []
  | fuel + 1, n, nEnd =>
    if n ≤ nEnd then
      formatMonth (n / 12) (n % 12 + 1) :: monthsLoopF fuel (n + 1) nEnd
    else []

/-- All months from linear month `n` to linear month `nEnd` inclusive. -/
def monthsLoop (n nEnd : Nat) : List String :=
  monthsLoopF (nEnd + 1 - n) n nEnd

/-- scripts/ledger_pro.py::get_months_in_range on the parsed year/month
numbers, with `none` for a raised ValueError: `datetime.date(y, m, 1)`
construction fails unless the month is in 1..12 and the year is in
1..9999 (MINYEAR/MAXYEAR); with constructible bounds the loop walks month
by month from the start to the end date, collecting `strftime("%Y-%m")`
strings (comparison of first-of-month dates is exactly comparison of
linearised month numbers) — except that when the loop body runs for
December 9999 the month increment constructs `date(10000, 1, 1)`, which
raises ValueError, so a non-empty range ending at 9999-12 errors instead
of returning. -/
def getMonthsInRange (sy sm ey em : Nat) : Option (List String) :=
  if 1 ≤ sm ∧ sm ≤ 12 ∧ 1 ≤ em ∧ em ≤ 12 ∧ 1 ≤ sy ∧ sy ≤ 9999 ∧ 1 ≤ ey ∧ ey ≤ 9999 then
    if 12 * sy + sm ≤ 12 * ey + em ∧ ey = 9999 ∧ em = 12 then
      none
    else
      some (monthsLoop (12 * sy + sm - 1) (12 * ey + em - 1))
  else none

/-- The per-month summary record appended for a nonempty month by
`generate_multi_month_report`. -/
def monthSummaryOf (store : Store) (m : String) : MonthSummary :=
  ⟨m, kindTotal (getMonthlyData store m) "income",
   kindTotal (getMonthlyData store m) "expense",
   kindTotal (getMonthlyData store m) "income"
     - kindTotal (getMonthlyData store m) "expense"⟩

/-! ### Helper lemmas -/

theorem naValues_monthKey : ∀ x ∈ naValues, isMonthKey (x.take 7) = false := by decide

theorem normalizeCell_of_not_na {s : String} (h : s ∉ naValues) : normalizeCell s = s :=
  if_neg h

theorem find?_beq_mem {l : List String} {c : String} (h : c ∈ l) :
    l.find? (fun k => k == c) = some c := by
  induction l with
  | nil => cases h
  | cons a l ih =>
    by_cases hac : a = c
    · subst hac
      rw [List.find?_cons_of_pos _ (by simp)]
    · rw [List.find?_cons_of_neg _ (by simp [hac])]
      rcases List.mem_cons.mp h with h1 | h1
      · exact absurd h1.symm hac
      · exact ih h1

theorem lookup0_not_mem {s : List (String × ℤ)} {c : String}
    (h : c ∉ s.map (fun p => p.1)) : lookup0 s c = 0 := by
  have hf : s.find? (fun p => p.1 == c) = none := by
    rw [List.find?_eq_none]
    intro p hp
    simp only [beq_iff_eq]
    intro hpc
    exact h (hpc ▸ List.mem_map_of_mem _ hp)
  simp [lookup0, hf]

theorem lookup0_nodup (s : List (String × ℤ)) (c : String)
    (h : (s.map (fun p => p.1)).Nodup) :
    lookup0 s c = ((s.filter (fun p => p.1 == c)).map (fun p => p.2)).sum := by
  induction s with
  | nil => rfl
  | cons p s ih =>
    rw [List.map_cons, List.nodup_cons] at h
    by_cases hc : p.1 = c
    · have hfs : s.filter (fun q => q.1 == c) = [] := by
        rw [List.filter_eq_nil_iff]
        intro q hq
        simp only [beq_iff_eq]
        intro hqc
        exact h.1 (by rw [hc, ← hqc]; exact List.mem_map_of_mem _ hq)
      rw [List.filter_cons_of_pos (by simp [hc])]
      simp [lookup0, List.find?_cons_of_pos, hc, hfs]
    · rw [List.filter_cons_of_neg (by simp [hc])]
      rw [← ih h.2]
      unfold lookup0
      rw [List.find?_cons_of_neg _ (by simp [hc])]

theorem lookup0_perm {s₁ s₂ : List (String × ℤ)} (h : s₁.Perm s₂)
    (hn : (s₁.map (fun p => p.1)).Nodup) (c : String) :
    lookup0 s₁ c = lookup0 s₂ c := by
  have hn2 : (s₂.map (fun p => p.1)).Nodup := (h.map _).nodup hn
  rw [lookup0_nodup _ _ hn, lookup0_nodup _ _ hn2]
  exact ((h.filter _).map _).sum_eq

theorem sortedCats_nodup (ps : List (String × ℤ)) : (sortedCats ps).Nodup := by
  unfold sortedCats
  exact (List.perm_insertionSort strle _).symm.nodup (List.nodup_dedup _)

theorem mem_sortedCats {ps : List (String × ℤ)} {c : String} :
    c ∈ sortedCats ps ↔ c ∈ ps.map (fun p => p.1) := by
  unfold sortedCats
  rw [(List.perm_insertionSort strle _).mem_iff, List.mem_dedup]

theorem groupbySum_keys (rows : List LoadedTxn) (k : String) :
    (groupbySum rows k).map (fun p => p.1) = sortedCats (kindPairs rows k) := by
  unfold groupbySum
  rw [List.map_map]
  exact List.map_id'' (fun x => rfl) _

theorem kindCatAmount_eq_fiber (rows : List LoadedTxn) (k c : String) :
    kindCatAmount rows k c
      = (((kindPairs rows k).filter (fun p => p.1 == c)).map (fun p => p.2)).sum := by
  induction rows with
  | nil => rfl
  | cons t rows ih =>
    unfold kindCatAmount kindPairs at ih ⊢
    by_cases ht : t.type = some k
    · cases hcat : t.category with
      | none =>
        simp [List.filter_cons, List.filterMap_cons, ht, hcat, ih]
      | some c0 =>
        by_cases hc0 : c0 = c
        · simp [List.filter_cons, List.filterMap_cons, ht, hcat, hc0, ih]
        · simp [List.filter_cons, List.filterMap_cons, ht, hcat, hc0, ih]
    · simp [List.filter_cons, ht, ih]

theorem catSummary_perm (rows : List LoadedTxn) (k : String) :
    (catSummary rows k).Perm (groupbySum rows k) := by
  unfold catSummary sortValuesDesc
  exact (List.reverse_perm _).trans (List.perm_insertionSort valle _)

theorem lookup0_map_keys {keys : List String} (f : String → ℤ) {c : String}
    (h : c ∈ keys) :
    lookup0 (keys.map (fun c2 => (c2, f c2))) c = f c := by
  induction keys with
  | nil => cases h
  | cons a keys ih =>
    by_cases hac : a = c
    · subst hac
      unfold lookup0
      rw [List.map_cons, List.find?_cons_of_pos _ (by simp)]
    · unfold lookup0 at ih ⊢
      rw [List.map_cons, List.find?_cons_of_neg _ (by simp [hac])]
      rcases List.mem_cons.mp h with h1 | h1
      · exact absurd h1.symm hac
      · exact ih h1

theorem lookup0_map_keys_not {keys : List String} (f : String → ℤ) {c : String}
    (h : c ∉ keys) :
    lookup0 (keys.map (fun c2 => (c2, f c2))) c = 0 := by
  apply lookup0_not_mem
  simpa using h

theorem lookup0_groupbySum (rows : List LoadedTxn) (k c : String) :
    lookup0 (groupbySum rows k) c = kindCatAmount rows k c := by
  rw [kindCatAmount_eq_fiber]
  unfold groupbySum
  by_cases hmem : c ∈ sortedCats (kindPairs rows k)
  · exact lookup0_map_keys _ hmem
  · rw [lookup0_map_keys_not _ hmem]
    have hfil : (kindPairs rows k).filter (fun p => p.1 == c) = [] := by
      rw [List.filter_eq_nil_iff]
      intro p hp
      simp only [beq_iff_eq]
      intro hpc
      exact hmem (mem_sortedCats.mpr (hpc ▸ List.mem_map_of_mem _ hp))
    rw [hfil]
    rfl

theorem lookup0_catSummary (rows : List LoadedTxn) (k c : String) :
    lookup0 (catSummary rows k) c = kindCatAmount rows k c := by
  rw [← lookup0_groupbySum rows k c]
  have hn : ((groupbySum rows k).map (fun p => p.1)).Nodup := by
    rw [groupbySum_keys]; exact sortedCats_nodup _
  exact (lookup0_perm (catSummary_perm rows k).symm hn c).symm

theorem lookup0_seriesAdd (a b : List (String × ℤ)) (c : String) :
    lookup0 (seriesAdd a b) c = lookup0 a c + lookup0 b c := by
  unfold seriesAdd
  by_cases hmem : c ∈ ((a.map (fun p => p.1) ++ b.map (fun p => p.1)).dedup.insertionSort strle)
  · exact lookup0_map_keys _ hmem
  · have hna : c ∉ a.map (fun p => p.1) := by
      intro hc
      exact hmem ((List.perm_insertionSort strle _).mem_iff.mpr
        (List.mem_dedup.mpr (List.mem_append_left _ hc)))
    have hnb : c ∉ b.map (fun p => p.1) := by
      intro hc
      exact hmem ((List.perm_insertionSort strle _).mem_iff.mpr
        (List.mem_dedup.mpr (List.mem_append_right _ hc)))
    rw [lookup0_map_keys_not _ hmem, lookup0_not_mem hna, lookup0_not_mem hnb]
    simp

theorem kindCatAmount_of_catSummary_nil {rows : List LoadedTxn} {k : String}
    (h : catSummary rows k = []) (c : String) : kindCatAmount rows k c = 0 := by
  have hg : groupbySum rows k = [] := by
    have hp := catSummary_perm rows k
    rw [h] at hp
    exact List.eq_nil_of_length_eq_zero (hp.length_eq.symm ▸ rfl)
  have hsc : sortedCats (kindPairs rows k) = [] := by
    have hmap := groupbySum_keys rows k
    rw [hg] at hmap
    simpa using hmap.symm
  have hkp : (kindPairs rows k).filter (fun p => p.1 == c) = [] := by
    rw [List.filter_eq_nil_iff]
    intro p hp _
    have : p.1 ∈ sortedCats (kindPairs rows k) :=
      mem_sortedCats.mpr (List.mem_map_of_mem _ hp)
    rw [hsc] at this
    cases this
  rw [kindCatAmount_eq_fiber, hkp]
  rfl

theorem kindCatAmount_nil (k c : String) : kindCatAmount [] k c = 0 := rfl

theorem toRd_day (y m d : Nat) : toRd y m d = toRd y m 1 + (d - 1) := by
  unfold toRd
  omega

theorem weeklyLoopF_nil (fuel cur last : Nat) (h : last < cur) :
    weeklyLoopF fuel cur last = [] := by
  cases fuel with
  | zero => rfl
  | succ f =>
    unfold weeklyLoopF
    rw [if_neg (by omega)]

theorem weeklyLoopF_shape : ∀ (fuel a b : Nat) (w : Nat × Nat),
    w ∈ weeklyLoopF fuel a b →
    ∃ k, w.1 = a + 7 * k ∧ w.2 = min (a + 7 * k + 6) b ∧ a + 7 * k ≤ b := by
  intro fuel
  induction fuel with
  | zero =>
    intro a b w hw
    cases hw
  | succ f ih =>
    intro a b w hw
    unfold weeklyLoopF at hw
    by_cases hab : a ≤ b
    · rw [if_pos hab] at hw
      rcases List.mem_cons.mp hw with h1 | h1
      · exact ⟨0, by simp [h1], by simp [h1], by omega⟩
      · by_cases h6 : a + 6 ≤ b
        · have hmin : min (a + 6) b = a + 6 := min_eq_left h6
          rw [hmin] at h1
          obtain ⟨k, hk1, hk2, hk3⟩ := ih (a + 6 + 1) b w h1
          refine ⟨k + 1, by omega, ?_, by omega⟩
          rw [hk2]
          congr 1
          omega
        · have hmin : min (a + 6) b = b := min_eq_right (by omega)
          rw [hmin, weeklyLoopF_nil f _ _ (by omega)] at h1
          cases h1
    · rw [if_neg hab] at hw
      cases hw

theorem weeklyLoopF_countP : ∀ (fuel a b x : Nat), a ≤ x → x ≤ b → b + 1 - a ≤ fuel →
    (weeklyLoopF fuel a b).countP (fun w => decide (w.1 ≤ x ∧ x ≤ w.2)) = 1 := by
  intro fuel
  induction fuel with
  | zero =>
    intro a b x h1 h2 h3
    omega
  | succ f ih =>
    intro a b x hax hxb hfuel
    unfold weeklyLoopF
    rw [if_pos (by omega), List.countP_cons]
    by_cases hxe : x ≤ min (a + 6) b
    · have hz : (weeklyLoopF f (min (a + 6) b + 1) b).countP
          (fun w => decide (w.1 ≤ x ∧ x ≤ w.2)) = 0 := by
        rw [List.countP_eq_zero]
        intro w hw
        obtain ⟨k, hk1, _, _⟩ := weeklyLoopF_shape f _ b w hw
        simp only [decide_eq_true_eq]
        omega
      rw [hz, if_pos (by simp only [decide_eq_true_eq]; omega)]
    · have hm : min (a + 6) b = a + 6 := by omega
      rw [hm] at hxe ⊢
      rw [if_neg (by simp only [decide_eq_true_eq]; omega)]
      rw [ih (a + 6 + 1) b x (by omega) hxb (by omega)]

theorem minDate_mem (d0 : Ymd) (l : List Ymd) : minDate d0 l ∈ d0 :: l := by
  induction l generalizing d0 with
  | nil => exact List.mem_cons_self _ _
  | cons b l ih =>
    have hstep : minDate d0 (b :: l) = minDate (if b.rd < d0.rd then b else d0) l := rfl
    rw [hstep]
    by_cases hb : b.rd < d0.rd
    · rw [if_pos hb]
      rcases List.mem_cons.mp (ih b) with h1 | h1
      · rw [h1]
        exact List.mem_cons_of_mem _ (List.mem_cons_self _ _)
      · exact List.mem_cons_of_mem _ (List.mem_cons_of_mem _ h1)
    · rw [if_neg hb]
      rcases List.mem_cons.mp (ih d0) with h1 | h1
      · rw [h1]
        exact List.mem_cons_self _ _
      · exact List.mem_cons_of_mem _ (List.mem_cons_of_mem _ h1)

theorem minDate_le (d0 : Ymd) (l : List Ymd) : ∀ x ∈ d0 :: l, (minDate d0 l).rd ≤ x.rd := by
  induction l generalizing d0 with
  | nil =>
    intro x hx
    rcases List.mem_cons.mp hx with h1 | h1
    · rw [h1]
      exact Nat.le_refl _
    · cases h1
  | cons b l ih =>
    intro x hx
    have hstep : minDate d0 (b :: l) = minDate (if b.rd < d0.rd then b else d0) l := rfl
    rw [hstep]
    by_cases hb : b.rd < d0.rd
    · rw [if_pos hb]
      have hle := ih b b (List.mem_cons_self _ _)
      rcases List.mem_cons.mp hx with h1 | h1
      · rw [h1]; omega
      · rcases List.mem_cons.mp h1 with h2 | h2
        · rw [h2]; exact hle
        · exact ih b x (List.mem_cons_of_mem _ h2)
    · rw [if_neg hb]
      have hle := ih d0 d0 (List.mem_cons_self _ _)
      rcases List.mem_cons.mp hx with h1 | h1
      · rw [h1]; exact hle
      · rcases List.mem_cons.mp h1 with h2 | h2
        · rw [h2]; omega
        · exact ih d0 x (List.mem_cons_of_mem _ h2)

theorem maxDate_mem (d0 : Ymd) (l : List Ymd) : maxDate d0 l ∈ d0 :: l := by
  induction l generalizing d0 with
  | nil => exact List.mem_cons_self _ _
  | cons b l ih =>
    have hstep : maxDate d0 (b :: l) = maxDate (if d0.rd < b.rd then b else d0) l := rfl
    rw [hstep]
    by_cases hb : d0.rd < b.rd
    · rw [if_pos hb]
      rcases List.mem_cons.mp (ih b) with h1 | h1
      · rw [h1]
        exact List.mem_cons_of_mem _ (List.mem_cons_self _ _)
      · exact List.mem_cons_of_mem _ (List.mem_cons_of_mem _ h1)
    · rw [if_neg hb]
      rcases List.mem_cons.mp (ih d0) with h1 | h1
      · rw [h1]
        exact List.mem_cons_self _ _
      · exact List.mem_cons_of_mem _ (List.mem_cons_of_mem _ h1)

theorem maxDate_ge (d0 : Ymd) (l : List Ymd) : ∀ x ∈ d0 :: l, x.rd ≤ (maxDate d0 l).rd := by
  induction l generalizing d0 with
  | nil =>
    intro x hx
    rcases List.mem_cons.mp hx with h1 | h1
    · rw [h1]
      exact Nat.le_refl _
    · cases h1
  | cons b l ih =>
    intro x hx
    have hstep : maxDate d0 (b :: l) = maxDate (if d0.rd < b.rd then b else d0) l := rfl
    rw [hstep]
    by_cases hb : d0.rd < b.rd
    · rw [if_pos hb]
      have hle := ih b b (List.mem_cons_self _ _)
      rcases List.mem_cons.mp hx with h1 | h1
      · rw [h1]; omega
      · rcases List.mem_cons.mp h1 with h2 | h2
        · rw [h2]; exact hle
        · exact ih b x (List.mem_cons_of_mem _ h2)
    · rw [if_neg hb]
      have hle := ih d0 d0 (List.mem_cons_self _ _)
      rcases List.mem_cons.mp hx with h1 | h1
      · rw [h1]; exact hle
      · rcases List.mem_cons.mp h1 with h2 | h2
        · rw [h2]; omega
        · exact ih d0 x (List.mem_cons_of_mem _ h2)

theorem monthsLoopF_eq : ∀ (fuel n nEnd : Nat), nEnd + 1 - n ≤ fuel →
    monthsLoopF fuel n nEnd = (List.range (nEnd + 1 - n)).map
      (fun k => formatMonth ((n + k) / 12) ((n + k) % 12 + 1)) := by
  intro fuel
  induction fuel with
  | zero =>
    intro n nEnd h
    have h0 : nEnd + 1 - n = 0 := by omega
    rw [h0]
    rfl
  | succ f ih =>
    intro n nEnd h
    unfold monthsLoopF
    by_cases hn : n ≤ nEnd
    · rw [if_pos hn]
      have hc : nEnd + 1 - n = (nEnd + 1 - (n + 1)) + 1 := by omega
      rw [hc, List.range_succ_eq_map, List.map_cons]
      congr 1
      rw [ih (n + 1) nEnd (by omega)]
      have hr : nEnd + 1 - (n + 1) = nEnd - n := by omega
      rw [hr, List.map_map]
      apply List.map_congr_left
      intro k _
      simp only [Function.comp]
      have he : n + 1 + k = n + Nat.succ k := by omega
      rw [he]
    · rw [if_neg hn]
      have h0 : nEnd + 1 - n = 0 := by omega
      rw [h0]
      rfl

theorem multiFold_monthly (store : Store) : ∀ (ms : List String) (acc : MultiReport),
    (ms.foldl (multiStep store) acc).monthly
      = acc.monthly ++ (ms.filter
          (fun m => !(getMonthlyData store m).isEmpty)).map (monthSummaryOf store) := by
  intro ms
  induction ms with
  | nil => intro acc; simp
  | cons m ms ih =>
    intro acc
    rw [List.foldl_cons, List.filter_cons]
    cases hm : (getMonthlyData store m).isEmpty with
    | true =>
      have hstep : multiStep store acc m = acc := by
        simp [multiStep, hm]
      rw [hstep, ih]
      simp [hm]
    | false =>
      have hstep : (multiStep store acc m).monthly
          = acc.monthly ++ [monthSummaryOf store m] := by
        simp [multiStep, hm, monthSummaryOf]
      rw [ih, hstep]
      simp [hm, List.append_assoc]

theorem multiFold_lookup (store : Store) (c : String) :
    ∀ (ms : List String) (acc : MultiReport),
    lookup0 ((ms.foldl (multiStep store) acc).expenseCats) c
      = lookup0 acc.expenseCats c
        + (ms.map (fun m => kindCatAmount (getMonthlyData store m) "expense" c)).sum := by
  intro ms
  induction ms with
  | nil => intro acc; simp
  | cons m ms ih =>
    intro acc
    rw [List.foldl_cons, List.map_cons, List.sum_cons, ih (multiStep store acc m)]
    have hstep : lookup0 (multiStep store acc m).expenseCats c
        = lookup0 acc.expenseCats c + kindCatAmount (getMonthlyData store m) "expense" c := by
      cases hm : (getMonthlyData store m).isEmpty with
      | true =>
        have hrows : getMonthlyData store m = [] := List.isEmpty_iff.mp hm
        simp [multiStep, hm, hrows, kindCatAmount_nil]
      | false =>
        cases hs : (catSummary (getMonthlyData store m) "expense").isEmpty with
        | true =>
          have hnil := List.isEmpty_iff.mp hs
          simp [multiStep, hm, hs, kindCatAmount_of_catSummary_nil hnil c]
        | false =>
          simp [multiStep, hm, hs, lookup0_seriesAdd, lookup0_catSummary]
    rw [hstep]
    ring

/-! ### Claims -/

/-- C1, counterexample: the claim says an invalid amount or date is rejected
with a ValidationError before any write; in fact the CLI append persists a
record with the negative amount -5, and `add_record` called directly (as the
API does) persists a record whose date "garbage" is unparseable, filing it
under the table keyed by the date's first seven characters. -/
theorem claimC1_counterexample :
    (mainAdd ⟨2025, 9, 15⟩ (fun _ => []) "2025-09-01" "food" (-5) "expense" "") "2025-09"
      = [⟨"2025-09-01", "food", -5, "expense", ""⟩] ∧
    addRecord (fun _ => []) ⟨"garbage", "x", 1, "expense", ""⟩ "garbage"
      = [⟨"garbage", "x", 1, "expense", ""⟩] ∧
    (-5 : ℤ) < 0 ∧ isValidDateStr "garbage" = false := by
  refine ⟨by decide, by decide, by decide, by decide⟩

/-- C1, amended: `add_record` performs no validation and always appends the
record to the table keyed by the first seven characters of its date string
(negative and arbitrary amounts included); only the CLI entry point rejects
a date that `strptime("%Y-%m-%d")` cannot parse, printing an error and
leaving the store unchanged (no ValidationError type exists). -/
theorem claimC1_amended :
    (∀ (store : Store) (t : Txn),
      addRecord store t (t.date.take 7) = (store (t.date.take 7)).map normalizeRow ++ [t]) ∧
    (∀ (today : Ymd) (store : Store) (ds cat : String) (amt : ℤ) (ty nt : String),
      ds ≠ "1" → ds ≠ "-1" → ds ≠ "-2" → ds ≠ "-3" → isValidDateStr ds = false →
      ∀ m, mainAdd today store ds cat amt ty nt m = store m) := by
  constructor
  · intro store t
    simp [addRecord]
  · intro today store ds cat amt ty nt h1 h2 h3 h4 h5 m
    simp [mainAdd, h1, h2, h3, h4, h5]

/-- C1, witness: the amended claim at concrete inputs — a valid record is
appended, and an unparseable CLI date writes nothing. -/
theorem claimC1_witness :
    addRecord (fun _ => []) ⟨"2025-09-01", "food", 25, "expense", ""⟩ "2025-09"
      = [⟨"2025-09-01", "food", 25, "expense", ""⟩] ∧
    mainAdd ⟨2025, 9, 15⟩ (fun _ => []) "nonsense" "x" 1 "expense" "" "2025-09" = [] := by
  constructor
  · have h := claimC1_amended.1 (fun _ => []) ⟨"2025-09-01", "food", 25, "expense", ""⟩
    have hk : ("2025-09-01" : String).take 7 = "2025-09" := by decide
    rw [hk] at h
    simpa using h
  · exact claimC1_amended.2 ⟨2025, 9, 15⟩ (fun _ => []) "nonsense" "x" 1 "expense" ""
      (by decide) (by decide) (by decide) (by decide) (by decide) "2025-09"

/-- C4, counterexample: for a month with zero transactions `export_md` does
not yield a report with zero totals — it bails out before writing anything
(`noData`), so no report object with any totals exists. -/
theorem claimC4_counterexample :
    exportMd (fun _ => []) "2025-09" = ExportOutcome.noData ∧
    ¬ ∃ weekly charts s, exportMd (fun _ => []) "2025-09"
        = ExportOutcome.ok weekly charts 0 0 0 s := by
  refine ⟨by decide, ?_⟩
  rintro ⟨w, c, s, hok⟩
  rw [show exportMd (fun _ => []) "2025-09" = ExportOutcome.noData from by decide] at hok
  exact ExportOutcome.noConfusion hok

/-- C4, amended: for a month with zero transactions no chart artifact is
produced, but the shapes differ by entry point: the CLI `export_md` writes
no report at all (early return with a warning), while the API report
endpoint returns totals all zero with an empty summary and the API export
writes zero totals (that endpoint never generates charts). -/
theorem claimC4_amended (store : Store) (m : String) (h : store m = []) :
    exportMd store m = ExportOutcome.noData ∧ exportCharts store m = [] ∧
    apiGenerateReport [] = ((0, 0, 0), []) ∧ apiExportTotals [] = (0, 0, 0) := by
  have h1 : exportMd store m = ExportOutcome.noData := by
    unfold exportMd getMonthlyData loadRows
    rw [h]
    rfl
  refine ⟨h1, ?_, by decide, by decide⟩
  unfold exportCharts
  rw [h1]

/-- C4, witness: the amended claim at a concrete empty store. -/
theorem claimC4_witness :
    exportMd (fun _ => []) "2025-08" = ExportOutcome.noData ∧
    exportCharts (fun _ => []) "2025-08" = [] ∧
    apiGenerateReport [] = ((0, 0, 0), []) ∧ apiExportTotals [] = (0, 0, 0) :=
  claimC4_amended (fun _ => []) "2025-08" rfl

/-- C8, confirmed: summarizing an empty transaction set yields zero totals
and empty category summaries, and a set empty for one kind yields a zero
total and empty summary for that kind; all the functions involved are total
(no error path). -/
theorem claimC8_confirmed :
    (calcMonthlySummary (loadRows []) = (0, 0, 0) ∧
     apiGenerateReport [] = ((0, 0, 0), []) ∧
     catSummary (loadRows []) "income" = [] ∧
     catSummary (loadRows []) "expense" = []) ∧
    (∀ (rows : List LoadedTxn) (k : String),
      rows.filter (fun t => t.type == some k) = [] →
      kindTotal rows k = 0 ∧ groupbySum rows k = [] ∧ catSummary rows k = []) := by
  constructor
  · exact ⟨by decide, by decide, by decide, by decide⟩
  · intro rows k hf
    have ht : kindTotal rows k = 0 := by
      unfold kindTotal
      rw [hf]
      rfl
    have hkp : kindPairs rows k = [] := by
      unfold kindPairs
      rw [hf]
      rfl
    have hg : groupbySum rows k = [] := by
      unfold groupbySum
      rw [hkp]
      rfl
    have hc : catSummary rows k = [] := by
      unfold catSummary sortValuesDesc
      rw [hg]
      rfl
    exact ⟨ht, hg, hc⟩

/-- C8, witness: a transaction set with no income rows yields zero income
total and empty income summaries. -/
theorem claimC8_witness :
    kindTotal (loadRows [⟨"2025-09-01", "food", 25, "expense", ""⟩]) "income" = 0 ∧
    groupbySum (loadRows [⟨"2025-09-01", "food", 25, "expense", ""⟩]) "income" = [] ∧
    catSummary (loadRows [⟨"2025-09-01", "food", 25, "expense", ""⟩]) "income" = [] :=
  claimC8_confirmed.2 (loadRows [⟨"2025-09-01", "food", 25, "expense", ""⟩]) "income"
    (by decide)

/-- C9, confirmed: appending routes each record to the table derived from
the first seven characters of its own date, so the MonthTable invariant —
every row of a table keyed "YYYY-MM" carries that key as its year-month
prefix — is preserved by every append. -/
theorem claimC9_confirmed (store : Store) (t : Txn)
    (hinv : ∀ m, isMonthKey m = true → ∀ r ∈ store m, r.date.take 7 = m) :
    ∀ m, isMonthKey m = true → ∀ r ∈ addRecord store t m, r.date.take 7 = m := by
  intro m hm r hr
  unfold addRecord at hr
  by_cases hkey : m = t.date.take 7
  · rw [if_pos hkey] at hr
    rcases List.mem_append.mp hr with h1 | h1
    · obtain ⟨r0, hr0, rfl⟩ := List.mem_map.mp h1
      rw [← hkey] at hr0
      have hr0d : r0.date.take 7 = m := hinv m hm r0 hr0
      have hna : r0.date ∉ naValues := by
        intro hmem
        have hbad := naValues_monthKey r0.date hmem
        rw [hr0d, hm] at hbad
        cases hbad
      show (normalizeCell r0.date).take 7 = m
      rw [normalizeCell_of_not_na hna]
      exact hr0d
    · rw [List.mem_singleton] at h1
      rw [h1, hkey]
  · rw [if_neg hkey] at hr
    exact hinv m hm r hr

/-- C9, witness: the invariant applied to a concrete append into an empty
store. -/
theorem claimC9_witness :
    (⟨"2025-09-01", "food", 25, "expense", ""⟩ : Txn).date.take 7 = "2025-09" :=
  claimC9_confirmed (fun _ => []) ⟨"2025-09-01", "food", 25, "expense", ""⟩
    (fun _ _ _ hr => nomatch hr) "2025-09" (by decide)
    ⟨"2025-09-01", "food", 25, "expense", ""⟩ (by decide)

/-- C10, counterexample: the range from 9999-11 to 9999-12 is made of
well-formed "YYYY-MM" months, but after appending "9999-12" the loop's
month increment constructs date(10000, 1, 1), which raises ValueError
(datetime MAXYEAR is 9999); the function errors instead of returning the
two months the claim promises. -/
theorem claimC10_counterexample :
    getMonthsInRange 9999 11 9999 12 = none ∧
    getMonthsInRange 9999 11 9999 12 ≠ some ["9999-11", "9999-12"] := by
  refine ⟨by decide, by decide⟩

/-- C10, amended: for well-formed year/month bounds the range is exactly
the consecutive months from start to end inclusive in ascending
chronological order (the k-th entry is the start month advanced k months,
crossing year boundaries through the linearised month number), and a
reversed range yields the empty list — except that a non-empty range
ending at December 9999 raises ValueError from the month increment
instead of returning. -/
theorem claimC10_amended (sy sm ey em : Nat)
    (h1 : 1 ≤ sm) (h2 : sm ≤ 12) (h3 : 1 ≤ em) (h4 : em ≤ 12)
    (h5 : 1 ≤ sy) (h5b : sy ≤ 9999) (h6 : 1 ≤ ey) (h6b : ey ≤ 9999) :
    (¬ (12 * sy + sm ≤ 12 * ey + em ∧ ey = 9999 ∧ em = 12) →
      getMonthsInRange sy sm ey em
        = some ((List.range (12 * ey + em + 1 - (12 * sy + sm))).map
            (fun k => formatMonth ((12 * sy + sm - 1 + k) / 12)
              ((12 * sy + sm - 1 + k) % 12 + 1)))) ∧
    (12 * ey + em < 12 * sy + sm → getMonthsInRange sy sm ey em = some []) ∧
    (12 * sy + sm ≤ 12 * ey + em ∧ ey = 9999 ∧ em = 12 →
      getMonthsInRange sy sm ey em = none) := by
  have hval : getMonthsInRange sy sm ey em
      = if 12 * sy + sm ≤ 12 * ey + em ∧ ey = 9999 ∧ em = 12 then none
        else some (monthsLoop (12 * sy + sm - 1) (12 * ey + em - 1)) := by
    unfold getMonthsInRange
    rw [if_pos ⟨h1, h2, h3, h4, h5, h5b, h6, h6b⟩]
  refine ⟨?_, ?_, ?_⟩
  · intro hok
    rw [hval, if_neg hok]
    unfold monthsLoop
    rw [monthsLoopF_eq _ _ _ (Nat.le_refl _)]
    have hAB : (12 * ey + em - 1) + 1 - (12 * sy + sm - 1)
        = 12 * ey + em + 1 - (12 * sy + sm) := by omega
    rw [hAB]
  · intro hlt
    rw [hval, if_neg (by rintro ⟨ha, _, _⟩; omega)]
    unfold monthsLoop
    have h0 : (12 * ey + em - 1) + 1 - (12 * sy + sm - 1) = 0 := by omega
    rw [h0]
    rfl
  · intro herr
    rw [hval, if_pos herr]

/-- C10, witness: a concrete range crossing a year boundary, and a
reversed range yielding the empty list. -/
theorem claimC10_witness :
    getMonthsInRange 2024 11 2025 2 = some ["2024-11", "2024-12", "2025-01", "2025-02"] ∧
    getMonthsInRange 2025 3 2025 1 = some [] := by
  constructor
  · have h := (claimC10_amended 2024 11 2025 2 (by decide) (by decide) (by decide)
      (by decide) (by decide) (by decide) (by decide) (by decide)).1 (by decide)
    rw [h]
    decide
  · exact (claimC10_amended 2025 3 2025 1 (by decide) (by decide) (by decide)
      (by decide) (by decide) (by decide) (by decide) (by decide)).2.1 (by decide)

/-- C6, counterexample: with two equal-amount expense categories appearing
in input order "a" then "b", the code produces ties in reverse alphabetical
order ("b" before "a"), while the spec's stable descending sort by original
category ordering would keep "a" before "b". -/
theorem claimC6_counterexample :
    catSummary [⟨some "2025-09-01", some "a", 10, some "expense", some "x"⟩,
                ⟨some "2025-09-02", some "b", 10, some "expense", some "x"⟩] "expense"
      = [("b", 10), ("a", 10)] ∧
    specCatSummary [⟨some "2025-09-01", some "a", 10, some "expense", some "x"⟩,
                    ⟨some "2025-09-02", some "b", 10, some "expense", some "x"⟩] "expense"
      = [("a", 10), ("b", 10)] ∧
    catSummary [⟨some "2025-09-01", some "a", 10, some "expense", some "x"⟩,
                ⟨some "2025-09-02", some "b", 10, some "expense", some "x"⟩] "expense"
      ≠ specCatSummary [⟨some "2025-09-01", some "a", 10, some "expense", some "x"⟩,
                        ⟨some "2025-09-02", some "b", 10, some "expense", some "x"⟩]
          "expense" := by
  refine ⟨by decide, by decide, by decide⟩

/-- C6, amended: every CategorySummary is a permutation of the per-category
sums ordered descending by summed amount, but ties are not broken by the
original category ordering: groupby first reorders categories
alphabetically and the descending sort reverses a stable ascending pass, so
equal amounts come out in reverse alphabetical order, as the concrete
instance shows. -/
theorem claimC6_amended (rows : List LoadedTxn) (k : String) :
    (catSummary rows k).Perm (groupbySum rows k) ∧
    (catSummary rows k).Sorted valge ∧
    catSummary [⟨some "2025-09-01", some "a", 10, some "expense", some "x"⟩,
                ⟨some "2025-09-02", some "b", 10, some "expense", some "x"⟩] "expense"
      = [("b", 10), ("a", 10)] := by
  refine ⟨catSummary_perm rows k, ?_, by decide⟩
  unfold catSummary sortValuesDesc
  exact (List.pairwise_reverse).mpr (List.sorted_insertionSort valle _)

/-- C3, counterexample: a September month whose transactions fall on days 5
and 10 — the code builds windows from day 1 of the month (days 1-7, then
8-10), not from the first transaction's day-of-month as the claim states
(which would give the single window 5-10); the day-10 transaction therefore
sits in window 2 rather than window 1. -/
theorem claimC3_counterexample :
    (weeklySection [⟨⟨2025, 9, 5⟩, some "a", 1, some "expense"⟩,
                    ⟨⟨2025, 9, 10⟩, some "b", 2, some "expense"⟩]).map (fun e => e.1)
      = [(toRd 2025 9 1, toRd 2025 9 7), (toRd 2025 9 8, toRd 2025 9 10)] ∧
    specWeeklyWindows [⟨⟨2025, 9, 5⟩, some "a", 1, some "expense"⟩,
                       ⟨⟨2025, 9, 10⟩, some "b", 2, some "expense"⟩]
      = [(toRd 2025 9 5, toRd 2025 9 10)] ∧
    (weeklySection [⟨⟨2025, 9, 5⟩, some "a", 1, some "expense"⟩,
                    ⟨⟨2025, 9, 10⟩, some "b", 2, some "expense"⟩]).map (fun e => e.1)
      ≠ specWeeklyWindows [⟨⟨2025, 9, 5⟩, some "a", 1, some "expense"⟩,
                           ⟨⟨2025, 9, 10⟩, some "b", 2, some "expense"⟩] := by
  refine ⟨by decide, by decide, by decide⟩

/-- C3, amended: for a non-empty single-month transaction set the weekly
sub-breakdown partitions the month into consecutive 7-day windows starting
from day 1 of the month (days 1-7, 8-14, ..., not calendar-aligned and not
anchored at the first transaction's day), with the last window truncated to
the month's last transaction date, and every transaction's date lies in
exactly one window. -/
theorem claimC3_amended (y m : Nat) (rows : List PRow) (hne : rows ≠ [])
    (hym : ∀ r ∈ rows, r.date.y = y ∧ r.date.m = m)
    (hd : ∀ r ∈ rows, 1 ≤ r.date.d ∧ r.date.d ≤ daysInMonth y m) :
    ∃ L, 1 ≤ L ∧ L ≤ daysInMonth y m ∧ (∃ r ∈ rows, r.date.d = L) ∧
      (∀ r ∈ rows, r.date.d ≤ L) ∧
      (weeklySection rows).map (fun e => e.1) = weeklyLoop (toRd y m 1) (toRd y m L) ∧
      (∀ w ∈ (weeklySection rows).map (fun e => e.1),
        ∃ k, w.1 = toRd y m 1 + 7 * k ∧ w.2 = min (toRd y m 1 + 7 * k + 6) (toRd y m L)) ∧
      (∀ r ∈ rows, ((weeklySection rows).map (fun e => e.1)).countP
          (fun w => decide (w.1 ≤ r.date.rd ∧ r.date.rd ≤ w.2)) = 1) := by
  cases rows with
  | nil => exact absurd rfl hne
  | cons r0 rest =>
    have hmn := minDate_mem r0.date (rest.map (fun r => r.date))
    have hmx := maxDate_mem r0.date (rest.map (fun r => r.date))
    rw [show r0.date :: rest.map (fun r => r.date)
        = (r0 :: rest).map (fun r => r.date) from rfl] at hmn hmx
    obtain ⟨rmn, hrmn, hmneq⟩ := List.mem_map.mp hmn
    obtain ⟨rmx, hrmx, hmxeq⟩ := List.mem_map.mp hmx
    have hmny : (minDate r0.date (rest.map (fun r => r.date))).y = y := by
      rw [← hmneq]; exact (hym rmn hrmn).1
    have hmnm : (minDate r0.date (rest.map (fun r => r.date))).m = m := by
      rw [← hmneq]; exact (hym rmn hrmn).2
    have hmxy : (maxDate r0.date (rest.map (fun r => r.date))).y = y := by
      rw [← hmxeq]; exact (hym rmx hrmx).1
    have hmxm : (maxDate r0.date (rest.map (fun r => r.date))).m = m := by
      rw [← hmxeq]; exact (hym rmx hrmx).2
    have hL1 : 1 ≤ (maxDate r0.date (rest.map (fun r => r.date))).d := by
      rw [← hmxeq]; exact (hd rmx hrmx).1
    have hL2 : (maxDate r0.date (rest.map (fun r => r.date))).d ≤ daysInMonth y m := by
      rw [← hmxeq]; exact (hd rmx hrmx).2
    have hub : ∀ r ∈ r0 :: rest,
        r.date.d ≤ (maxDate r0.date (rest.map (fun r => r.date))).d := by
      intro r hr
      have h1 := maxDate_ge r0.date (rest.map (fun r => r.date)) r.date
        (List.mem_map_of_mem (fun r => r.date) hr)
      simp only [Ymd.rd] at h1
      rw [(hym r hr).1, (hym r hr).2, hmxy, hmxm] at h1
      rw [toRd_day y m r.date.d,
        toRd_day y m (maxDate r0.date (rest.map (fun r => r.date))).d] at h1
      have hd1 := (hd r hr).1
      omega
    have hws : (weeklySection (r0 :: rest)).map (fun e => e.1)
        = weeklyLoop (toRd y m 1)
            (toRd y m (maxDate r0.date (rest.map (fun r => r.date))).d) := by
      simp only [weeklySection]
      rw [List.map_map]
      have hid : ∀ (l : List (Nat × Nat)),
          l.map ((fun e : (Nat × Nat) × List (String × ℤ) => e.1)
            ∘ (fun w => (w, windowSummary (r0 :: rest) w))) = l :=
        fun l => List.map_id'' (fun x => rfl) l
      rw [hid]
      simp only [Ymd.rd]
      rw [hmny, hmnm, hmxy, hmxm]
      have hle : toRd y m (maxDate r0.date (rest.map (fun r => r.date))).d
          ≤ toRd y m (daysInMonth y m) := by
        rw [toRd_day, toRd_day y m (daysInMonth y m)]
        omega
      rw [min_eq_right hle]
    refine ⟨(maxDate r0.date (rest.map (fun r => r.date))).d, hL1, hL2,
      ⟨rmx, hrmx, by rw [hmxeq]⟩, hub, hws, ?_, ?_⟩
    · intro w hw
      rw [hws] at hw
      unfold weeklyLoop at hw
      obtain ⟨k, hk1, hk2, _⟩ := weeklyLoopF_shape _ _ _ w hw
      exact ⟨k, hk1, hk2⟩
    · intro r hr
      rw [hws]
      unfold weeklyLoop
      have hrd : r.date.rd = toRd y m r.date.d := by
        simp only [Ymd.rd]
        rw [(hym r hr).1, (hym r hr).2]
      have hd1 := (hd r hr).1
      have hd2 := hub r hr
      apply weeklyLoopF_countP
      · rw [hrd, toRd_day y m r.date.d]
        omega
      · rw [hrd, toRd_day y m r.date.d,
          toRd_day y m (maxDate r0.date (rest.map (fun r => r.date))).d]
        omega
      · exact Nat.le_refl _

/-- C3, witness: the amended claim at the concrete two-transaction
September set. -/
theorem claimC3_witness :
    ∃ L, 1 ≤ L ∧ L ≤ daysInMonth 2025 9 ∧
      (∃ r ∈ [⟨⟨2025, 9, 5⟩, some "a", 1, some "expense"⟩,
              (⟨⟨2025, 9, 10⟩, some "b", 2, some "expense"⟩ : PRow)], r.date.d = L) ∧
      (∀ r ∈ [⟨⟨2025, 9, 5⟩, some "a", 1, some "expense"⟩,
              (⟨⟨2025, 9, 10⟩, some "b", 2, some "expense"⟩ : PRow)], r.date.d ≤ L) ∧
      (weeklySection [⟨⟨2025, 9, 5⟩, some "a", 1, some "expense"⟩,
          ⟨⟨2025, 9, 10⟩, some "b", 2, some "expense"⟩]).map (fun e => e.1)
        = weeklyLoop (toRd 2025 9 1) (toRd 2025 9 L) ∧
      (∀ w ∈ (weeklySection [⟨⟨2025, 9, 5⟩, some "a", 1, some "expense"⟩,
          ⟨⟨2025, 9, 10⟩, some "b", 2, some "expense"⟩]).map (fun e => e.1),
        ∃ k, w.1 = toRd 2025 9 1 + 7 * k
          ∧ w.2 = min (toRd 2025 9 1 + 7 * k + 6) (toRd 2025 9 L)) ∧
      (∀ r ∈ [⟨⟨2025, 9, 5⟩, some "a", 1, some "expense"⟩,
              (⟨⟨2025, 9, 10⟩, some "b", 2, some "expense"⟩ : PRow)],
        ((weeklySection [⟨⟨2025, 9, 5⟩, some "a", 1, some "expense"⟩,
            ⟨⟨2025, 9, 10⟩, some "b", 2, some "expense"⟩]).map (fun e => e.1)).countP
          (fun w => decide (w.1 ≤ r.date.rd ∧ r.date.rd ≤ w.2)) = 1) :=
  claimC3_amended 2025 9
    [⟨⟨2025, 9, 5⟩, some "a", 1, some "expense"⟩,
     ⟨⟨2025, 9, 10⟩, some "b", 2, some "expense"⟩]
    (by decide) (by decide) (by decide)

/-- C5, confirmed: multi-month aggregation processes the months in
ascending lexical order, skips months with no data (no error, and they do
not appear in the per-month breakdown), and the merged expense
CategorySummary assigns each category the sum of its per-month amounts
(a category absent from a month contributes nothing for it); the spec's
scenario — January expense food 100 merged with February food 50 and
transport 20 — yields food 150 and transport 20. -/
theorem claimC5_confirmed (store : Store) (months : List String)
    (_hdates : ∀ m ∈ months, ∀ t ∈ store m, isValidDateStr t.date = true) :
    (multiMonthReport store months).monthly
      = ((months.insertionSort strle).filter
          (fun m => !(getMonthlyData store m).isEmpty)).map (monthSummaryOf store) ∧
    ((multiMonthReport store months).monthly.map (fun s => s.month)).Sorted strle ∧
    (∀ c, lookup0 (multiMonthReport store months).expenseCats c
      = (months.map (fun m => kindCatAmount (getMonthlyData store m) "expense" c)).sum) ∧
    (multiMonthReport
        (fun m => if m = "2025-01" then [⟨"2025-01-05", "food", 100, "expense", ""⟩]
          else if m = "2025-02" then
            [⟨"2025-02-03", "food", 50, "expense", ""⟩,
             ⟨"2025-02-04", "transport", 20, "expense", ""⟩]
          else [])
        ["2025-01", "2025-02"]).expenseCats = [("food", 150), ("transport", 20)] := by
  have hmonthly : (multiMonthReport store months).monthly
      = ((months.insertionSort strle).filter
          (fun m => !(getMonthlyData store m).isEmpty)).map (monthSummaryOf store) := by
    unfold multiMonthReport
    rw [multiFold_monthly store (months.insertionSort strle) ⟨0, 0, [], [], []⟩]
    rfl
  refine ⟨hmonthly, ?_, ?_, by decide⟩
  · rw [hmonthly, List.map_map]
    have hid : ∀ (l : List String),
        l.map ((fun s : MonthSummary => s.month) ∘ monthSummaryOf store) = l :=
      fun l => List.map_id'' (fun x => rfl) l
    rw [hid]
    exact List.Pairwise.sublist (List.filter_sublist _) (List.sorted_insertionSort strle months)
  · intro c
    unfold multiMonthReport
    rw [multiFold_lookup store c (months.insertionSort strle) ⟨0, 0, [], [], []⟩]
    rw [show lookup0 ([] : List (String × ℤ)) c = 0 from rfl, zero_add]
    exact ((List.perm_insertionSort strle months).map
      (fun m => kindCatAmount (getMonthlyData store m) "expense" c)).sum_eq

/-- C5, witness: the merged category amounts of the scenario instance,
obtained through the general merge property. -/
theorem claimC5_witness :
    lookup0 (multiMonthReport
        (fun m => if m = "2025-01" then [⟨"2025-01-05", "food", 100, "expense", ""⟩]
          else if m = "2025-02" then
            [⟨"2025-02-03", "food", 50, "expense", ""⟩,
             ⟨"2025-02-04", "transport", 20, "expense", ""⟩]
          else [])
        ["2025-01", "2025-02"]).expenseCats "food" = 150 ∧
    lookup0 (multiMonthReport
        (fun m => if m = "2025-01" then [⟨"2025-01-05", "food", 100, "expense", ""⟩]
          else if m = "2025-02" then
            [⟨"2025-02-03", "food", 50, "expense", ""⟩,
             ⟨"2025-02-04", "transport", 20, "expense", ""⟩]
          else [])
        ["2025-01", "2025-02"]).expenseCats "transport" = 20 := by
  have h := claimC5_confirmed
    (fun m => if m = "2025-01" then [⟨"2025-01-05", "food", 100, "expense", ""⟩]
      else if m = "2025-02" then
        [⟨"2025-02-03", "food", 50, "expense", ""⟩,
         ⟨"2025-02-04", "transport", 20, "expense", ""⟩]
      else [])
    ["2025-01", "2025-02"] (by decide)
  constructor
  · rw [h.2.2.1 "food"]
    decide
  · rw [h.2.2.1 "transport"]
    decide
